import Mathlib

/-!
Verification development for the ai-htr repository: shallow embeddings of the
OCR orchestration code in `azure-gcp-vision-extractor.py`, `multi_extractor.py`
and `gdocai.py`, together with theorems settling the frozen claims about it.

Conventions of the embedding:
* Python strings are Lean `String`s; helpers (`pyStrip`, `pyDropRight`,
  `pyJoin`, `pyEndsWith`) mirror the exact Python primitives used by the code.
* A Python value that may be `None` is an `Option`; Python truthiness of
  strings / dicts / lists is made explicit (`JValue.truthy`, `optStrTruthy`).
* Network / filesystem effects are injected as explicit inputs (scripted
  provider responses, booleans for the success of an `open` or a write).
-/

/-- JSON-like values: the shape of the dictionaries the scripts build and
serialize (`MessageToDict` results, `as_dict()` results, envelopes). -/
inductive JValue where
  | str (s : String)
  | num (n : Int)
  | arr (xs : List JValue)
  | obj (fields : List (String × JValue))

/-- Python truthiness of a JSON value ( `if page_json:` etc.):
empty string / zero / empty list / empty dict are falsy. -/
def JValue.truthy : JValue → Bool
  | .str s => !s.isEmpty
  | .num n => !(n == 0)
  | .arr xs => !xs.isEmpty
  | .obj fs => !fs.isEmpty

/-- Truthiness of an optional Python string (`if page_text:`):
`None` and the empty string are falsy. -/
def optStrTruthy : Option String → Bool
  | none => false
  | some t => !t.isEmpty

/-- Truthiness of an optional Python dict (`if page_json:`). -/
def optJsonTruthy : Option JValue → Bool
  | none => false
  | some j => j.truthy

/-- Python dict assignment `d[k] = v`: overwrite in place if the key exists,
otherwise append (insertion order is preserved). -/
def jsonSetField (o : List (String × JValue)) (k : String) (v : JValue) :
    List (String × JValue) :=
  if o.any (fun p => p.1 == k) then
    o.map (fun p => if p.1 == k then (k, v) else p)
  else o ++ [(k, v)]

/-! ## Python string primitives used by the scripts -/

/-- Python whitespace for `str.strip()`. -/
def isPySpace (c : Char) : Bool :=
  c == ' ' || c == '\t' || c == '\n' || c == '\r' || c == '\x0b' || c == '\x0c'

/-- Python `s[:-n]`: drop the last `n` characters (empty result when `n ≥ len`). -/
def pyDropRight (s : String) (n : Nat) : String :=
  String.mk (s.data.take (s.data.length - n))

/-- Python `s.strip()`: remove leading and trailing whitespace. -/
def pyStrip (s : String) : String :=
  String.mk (((s.data.dropWhile isPySpace).reverse.dropWhile isPySpace).reverse)

/-- Python `s.endswith(p)`. -/
def pyEndsWith (s p : String) : Bool :=
  p.data.reverse.isPrefixOf s.data.reverse

/-- Python `sep.join(parts)`. -/
def pyJoin (sep : String) : List String → String
  | [] => ""
  | [t] => t
  | t :: ts => t ++ sep ++ pyJoin sep ts

/-! ## Counting substring occurrences

`countOcc pat s` counts the positions of `s` at which `pat` occurs (the spec's
"the output text contains exactly N−1 occurrences of the page-break
separator"). -/

/-- Number of positions at which `pat` occurs in the character list. -/
def countOcc (pat : List Char) : List Char → Nat
  | [] => 0
  | c :: rest => cond (pat.isPrefixOf (c :: rest)) (countOcc pat rest + 1) (countOcc pat rest)

/-- Occurrence count at the string level. -/
def strCountOcc (pat s : String) : Nat :=
  countOcc pat.data s.data

/-- The page-break marker the spec counts. -/
def pbMark : String := "--- Page Break ---"

/-- The full separator placed between pages by the aggregator. -/
def pageSep : String := "\n\n--- Page Break ---\n\n"

/-! ## Azure Read polling adapter (`ocr_azure_read_stream`)

The network is scripted: the n-th call to `client.get_read_result` returns the
n-th element of the script.  Each result carries the fields the Python code
reads: `status`, `analyze_result.read_results` (a list of pages, each a list of
line texts), an optional `message`, an optional `analyze_result.errors`
rendering, and the `as_dict()` serialization. -/

structure AzureReadResult where
  status : String
  pages : List (List String)
  message : Option String
  apiErrors : Option String
  raw : JValue

/-- `read_result.status not in ['notStarted', 'running']` exits the loop. -/
def azInProgress (s : String) : Bool :=
  s == "notStarted" || s == "running"

/-- The `while True` poll loop: returns `(checks, waitUnits, final result)`;
`none` when the script is exhausted while still in progress (a run that would
keep polling).  `time.sleep(2)` runs after every in-progress check. -/
def pollUntilDone : List AzureReadResult → Option (Nat × Nat × AzureReadResult)
  | [] => none
  | r :: rest =>
    if azInProgress r.status then
      match pollUntilDone rest with
      | none => none
      | some (c, w, fin) => some (c + 1, w + 2, fin)
    else
      some (1, 0, r)

/-- Text assembly of the succeeded branch: per page every line plus `"\n"`,
then `"\n--- Page Break ---\n\n"`; afterwards, when non-empty, Python slices
off `len("\n\n--- Page Break ---\n\n")` = 22 characters and strips. -/
def azureSucceededText (pages : List (List String)) : String :=
  let t0 := String.join (pages.map (fun ls =>
    String.join (ls.map (fun l => l ++ "\n")) ++ "\n--- Page Break ---\n\n"))
  if t0.isEmpty then t0 else pyStrip (pyDropRight t0 22)

/-- The diagnostic message of the failure branch. -/
def azureErrorMessage (name : String) (r : AzureReadResult) : String :=
  let base := "Azure Read API failed for " ++ name ++ ": " ++ r.status
  let base := match r.message with
    | some m => base ++ " - Message: " ++ m
    | none => base
  match r.apiErrors with
  | some e => base ++ " - API Errors: " ++ e
  | none => base

/-- The structured failure dict returned for a non-succeeded terminal status. -/
def azureFailureJson (name : String) (r : AzureReadResult) : JValue :=
  JValue.obj [("error", JValue.str (azureErrorMessage name r)),
              ("details", r.raw)]

/-- Outcome of one `ocr_azure_read_stream` call: how many status checks were
issued, the total `time.sleep` units, and the `(text, json)` pair the Python
function returns (`text = none` models Python `None`). -/
structure AzureOutcome where
  checks : Nat
  waitUnits : Nat
  text : Option String
  json : Option JValue

/-- `ocr_azure_read_stream` over a scripted status sequence.  The whole body is
wrapped in `try/except` in the source, so it always returns a value; `none`
here only models a script exhausted while still in progress. -/
def ocr_azure_read_stream (name : String) (script : List AzureReadResult) :
    Option AzureOutcome :=
  match pollUntilDone script with
  | none => none
  | some (c, w, fin) =>
    if fin.status == "succeeded" then
      some ⟨c, w, some (azureSucceededText fin.pages), some fin.raw⟩
    else
      some ⟨c, w, none, some (azureFailureJson name fin)⟩

/-! ## Forced per-page conversion aggregation (`process_file`, PDF → images)

One `PageResult` per rasterized page: the `(page_text, page_json)` pair the
provider call returned (`none` = Python `None` = the call failed). -/

structure PageResult where
  text : Option String
  json : Option JValue

/-- `if page_text: all_text_parts.append(page_text)` over the page loop. -/
def collectTextParts : List PageResult → List String
  | [] => []
  | r :: rest =>
    match r.text with
    | some t => if t.data.isEmpty then collectTextParts rest else t :: collectTextParts rest
    | none => collectTextParts rest

/-- `if page_json: all_json_responses_parts.append({page, response})`,
with `page_num = i + 1` counting every page (including skipped ones). -/
def collectJsonAux : Nat → List PageResult → List JValue
  | _, [] => []
  | n, r :: rest =>
    match r.json with
    | some j =>
      if j.truthy then
        JValue.obj [("page", JValue.num (Int.ofNat n)), ("response", j)]
          :: collectJsonAux (n + 1) rest
      else collectJsonAux (n + 1) rest
    | none => collectJsonAux (n + 1) rest

/-- The `pages` list of the forced-conversion envelope (1-based ordinals). -/
def collectJsonParts (results : List PageResult) : List JValue :=
  collectJsonAux 1 results

/-- The trailing-separator trimming applied to a joined text blob:
`if text: text = text.strip(); if text.endswith("--- Page Break ---"):
text = text[:-len("--- Page Break ---")].strip()`. -/
def pageBreakTrim (t : String) : String :=
  if t.data.isEmpty then t
  else
    let t1 := pyStrip t
    if pyEndsWith t1 pbMark then pyStrip (pyDropRight t1 18) else t1

/-- The merged text of the forced-conversion branch. -/
def mergeTexts (results : List PageResult) : String :=
  pageBreakTrim (pyJoin pageSep (collectTextParts results))

/-- The JSON envelope of the forced-conversion branch. -/
def forcedEnvelope (results : List PageResult) (sourceFile : String) : JValue :=
  JValue.obj [("pages", JValue.arr (collectJsonParts results)),
              ("source_file", JValue.str sourceFile),
              ("method", JValue.str "pdf_converted_to_images")]

/-- End of the forced-conversion branch of `process_file`: `text_content` is a
`str` (possibly empty) and `json_response` a dict, so the final gate
`if text_content is not None and json_response is not None` passes and
`save_results` is called; `none` would model the "No results to save" branch. -/
def forcedProcess (results : List PageResult) (sourceFile : String) :
    Option (String × JValue) :=
  let textContent : Option String := some (mergeTexts results)
  let jsonResponse : Option JValue := some (forcedEnvelope results sourceFile)
  match textContent, jsonResponse with
  | some t, some j => some (t, j)
  | _, _ => none

/-! ## Google Vision single image (`ocr_google_image_bytes`) -/

/-- The fields of a Google Vision response the function reads:
`response.error.message` (`some` = non-empty message, which the code converts
into an exception caught by its own handler), `full_text_annotation` (absent
when falsy; its `.text` may be the empty string), and the `MessageToDict`
serialization of the whole response. -/
structure GVisionResponse where
  errMsg : Option String
  fullText : Option String
  raw : JValue

/-- `ocr_google_image_bytes`: failure returns `(None, None)`; success returns
`(text, MessageToDict(response))`, with `text = ""` when the response carries
no full-text field. -/
def ocr_google_image_bytes (resp : GVisionResponse) : Option String × Option JValue :=
  match resp.errMsg with
  | some _ => (none, none)
  | none => (some (resp.fullText.getD ""), some resp.raw)

/-! ## Google Vision direct PDF (`ocr_google_pdf`) -/

/-- One element of `file_response.responses`: the per-page response of the
batch operation (`full_text_annotation.text` when the field is truthy, the
`MessageToDict` field list, and `context.page_number` when available). -/
structure GPdfPageResponse where
  fullText : Option String
  raw : List (String × JValue)
  contextPage : Option Int

/-- One entry of the direct-PDF `pages` array: the raw per-page dict with
`page_number_from_ocr_iteration` (and possibly `page_number_from_api`)
assigned into it. -/
def gPdfEntry (n : Nat) (p : GPdfPageResponse) : JValue :=
  let d1 := jsonSetField p.raw "page_number_from_ocr_iteration" (JValue.num (Int.ofNat n))
  let d2 := match p.contextPage with
    | some m => jsonSetField d1 "page_number_from_api" (JValue.num m)
    | none => d1
  JValue.obj d2

/-- The `pages` entries of the direct-PDF result, enumerating from 1. -/
def gPdfEntries : Nat → List GPdfPageResponse → List JValue
  | _, [] => []
  | n, p :: rest => gPdfEntry n p :: gPdfEntries (n + 1) rest

/-- `ocr_google_pdf`: the input is `operation_result.responses[0].responses`
when the outer response list is non-empty (`none` models the missing/empty
outer list, which yields the error dict).  The text accumulates
`page_text + "\n\n--- Page Break ---\n\n"` for each page whose full-text field
is truthy, then the trailing-break trimming runs. -/
def ocr_google_pdf (name : String) (outer : Option (List GPdfPageResponse)) :
    Option String × Option JValue :=
  match outer with
  | none =>
    (none, some (JValue.obj
      [("error", JValue.str ("No responses from Google PDF processing for " ++ name))]))
  | some rs =>
    let t0 := String.join (rs.map (fun p =>
      match p.fullText with
      | some t => t ++ "\n\n--- Page Break ---\n\n"
      | none => ""))
    (some (pageBreakTrim t0),
     some (JValue.obj [("pages", JValue.arr (gPdfEntries 1 rs)),
                       ("source_file", JValue.str name)]))

/-- Shape check written from the spec's words (refinement side): the claimed
envelope is an object carrying `pages`, `source_file` and `method` fields. -/
def specEnvelopeShape : JValue → Bool
  | JValue.obj fields =>
    (fields.any (fun p => p.1 == "pages")) &&
    (fields.any (fun p => p.1 == "source_file")) &&
    (fields.any (fun p => p.1 == "method"))
  | _ => false

/-! ## The output writer (`save_results`) -/

/-- Terminal filesystem state of one `save_results` call. -/
structure SaveState where
  txtWritten : Bool
  jsonWritten : Bool
  raised : Bool

/-- `save_results` writes the `.txt` sibling first, then the `.json` sibling;
there is no `try/except` and no cleanup, so a failing write propagates and a
`.txt` already written stays on disk.  The injected booleans say whether each
`open`/write succeeds. -/
def save_results (txtOk jsonOk : Bool) : SaveState :=
  if !txtOk then ⟨false, false, true⟩
  else if !jsonOk then ⟨true, false, true⟩
  else ⟨true, true, false⟩

/-! ## `process_file` and the main loop -/

/-- The extension allow-list of the script. -/
def SUPPORTED_IMAGE_EXTENSIONS : List String :=
  [".png", ".jpg", ".jpeg", ".bmp", ".tiff", ".tif", ".gif", ".webp"]

/-- One file's processing context: its (lowercased) extension and name, the CLI
choices, and the injected outcomes of the external effects the branches touch.
`docText`/`docJson` is the provider result for the whole-document paths (those
provider adapters catch their own exceptions and return a pair). -/
structure ProcCtx where
  ext : String
  fileName : String
  api : String
  forcePdf : Bool
  pdfOpenOk : Bool
  imgOpenOk : Bool
  convertOk : Bool
  pageResults : List PageResult
  docText : Option String
  docJson : Option JValue
  txtWriteOk : Bool
  jsonWriteOk : Bool

/-- Outcome of `process_file` for one file. -/
inductive ProcOutcome where
  | returned
  | saved (text : String) (json : JValue)
  | raised

/-- The final save gate of `process_file` plus the (unprotected) call to
`save_results`: a failing write raises out of `process_file`. -/
def saveCheck (ctx : ProcCtx) (t : Option String) (j : Option JValue) : ProcOutcome :=
  match t, j with
  | some tc, some jc =>
    if ctx.txtWriteOk then
      if ctx.jsonWriteOk then ProcOutcome.saved tc jc else ProcOutcome.raised
    else ProcOutcome.raised
  | _, _ => ProcOutcome.returned

/-- `process_file`: branch structure of the source.  The direct-PDF Azure
branch performs `with open(file_path, "rb")` outside any `try`, so a failing
open raises; the image branch catches `FileNotFoundError` and `Exception`; the
forced-conversion branch catches everything; the Google PDF adapter opens the
file inside its own `try`.  (Clients are non-`None` here: `main` exits
otherwise.) -/
def process_file (ctx : ProcCtx) : ProcOutcome :=
  if !(ctx.ext == ".pdf") && !(SUPPORTED_IMAGE_EXTENSIONS.contains ctx.ext) then
    ProcOutcome.returned
  else if (ctx.ext == ".pdf") && !ctx.forcePdf then
    if ctx.api == "google" then saveCheck ctx ctx.docText ctx.docJson
    else if ctx.api == "azure" then
      if ctx.pdfOpenOk then saveCheck ctx ctx.docText ctx.docJson
      else ProcOutcome.raised
    else ProcOutcome.returned
  else if (ctx.ext == ".pdf") && ctx.forcePdf then
    if ctx.convertOk then
      match forcedProcess ctx.pageResults ctx.fileName with
      | some (t, j) => saveCheck ctx (some t) (some j)
      | none => ProcOutcome.returned
    else ProcOutcome.returned
  else
    if ctx.imgOpenOk then
      if ctx.api == "google" || ctx.api == "azure" then
        saveCheck ctx ctx.docText ctx.docJson
      else ProcOutcome.returned
    else ProcOutcome.returned

/-- The `for file_to_process_obj in files_to_process` loop of `main`: it has no
`try/except`, so an exception escaping `process_file` aborts the whole run and
every later file is left unprocessed. -/
def runAll : List ProcCtx → List ProcOutcome
  | [] => []
  | c :: cs =>
    match process_file c with
    | ProcOutcome.raised => [ProcOutcome.raised]
    | o => o :: runAll cs

/-! ## Output naming schemes of the three scripts -/

/-- `azure-gcp-vision-extractor.py`: `output_filename_base =
f"{stem}_{api_choice}_{timestamp}"`, and `save_results` writes
`base + ".txt"` and `base + ".json"`. -/
def avOutputFiles (stem api ts : String) : List String :=
  [stem ++ "_" ++ api ++ "_" ++ ts ++ ".txt",
   stem ++ "_" ++ api ++ "_" ++ ts ++ ".json"]

/-- `multi_extractor.py`: per provider one file,
`f"{base_name}_{provider_name}_extracted_{current_time_str}.txt"`. -/
def multiOutputFiles (base provider ts : String) : List String :=
  [base ++ "_" ++ provider ++ "_extracted_" ++ ts ++ ".txt"]

/-- `mtext_extractor.py`: one auto-named file,
`f"{file.stem}_extracted_{stamp}.md"`. -/
def mtextOutputFiles (stem ts : String) : List String :=
  [stem ++ "_extracted_" ++ ts ++ ".md"]

/-- The naming scheme the spec claims for every script (refinement side):
`<stem>_<provider>_<timestamp>.txt` and `<stem>_<provider>_<timestamp>.json`. -/
def specClaimedFiles (stem provider ts : String) : List String :=
  [stem ++ "_" ++ provider ++ "_" ++ ts ++ ".txt",
   stem ++ "_" ++ provider ++ "_" ++ ts ++ ".json"]

/-! ## `multi_extractor.py` PDF processing (`process_pdf_file_with_provider`) -/

/-- The parameter names of `pil_to_image_bytes(pil_image, image_format='PNG')`. -/
def pilToImageBytesParams : List String := ["pil_image", "image_format"]

/-- Binding one positional argument plus one keyword argument against the
parameter list: Python raises `TypeError` when the keyword matches no
parameter (or re-binds the positional one). -/
def bindOneKwarg (params : List String) (kw : String) : Except String Unit :=
  if (params.drop 1).contains kw then Except.ok ()
  else Except.error "TypeError: unexpected keyword argument"

/-- The loop body of `process_pdf_file_with_provider` for page `i` (0-based):
gemini receives the PIL image directly; openai/anthropic first evaluate
`pil_to_image_bytes(page_pil_image, format=pdf_page_img_fmt)` — a call with
keyword `format` — before the per-page extraction; any other provider leaves
`page_text = ""`.  `pageText` is the text the provider call would return. -/
def mePageStep (provider : String) (i : Nat) (pageText : String) :
    Except String String :=
  let header := "--- Page " ++ toString (i + 1) ++ " ---\n"
  if provider == "gemini" then Except.ok (header ++ pageText)
  else if provider == "openai" || provider == "anthropic" then
    match bindOneKwarg pilToImageBytesParams "format" with
    | Except.error e => Except.error e
    | Except.ok _ => Except.ok (header ++ pageText)
  else Except.ok (header ++ "")

/-- The page loop, collecting `all_page_texts`; an exception aborts it. -/
def mePageLoop (provider : String) : Nat → List String → Except String (List String)
  | _, [] => Except.ok []
  | i, t :: ts =>
    match mePageStep provider i t with
    | Except.error e => Except.error e
    | Except.ok s =>
      match mePageLoop provider (i + 1) ts with
      | Except.error e => Except.error e
      | Except.ok rest => Except.ok (s :: rest)

/-- `process_pdf_file_with_provider`: empty conversion result returns the
fixed message; an exception in the loop is caught by the surrounding handler
and rendered as an error string; otherwise the page texts are joined. -/
def process_pdf_file_with_provider (pdfPath provider : String)
    (pageTexts : List String) : String :=
  if pageTexts.isEmpty then "Could not convert PDF to images."
  else
    match mePageLoop provider 0 pageTexts with
    | Except.error e =>
      "Error processing PDF " ++ pdfPath ++ " with " ++ provider ++ ": " ++ e
    | Except.ok parts => pyJoin "\n\n" parts

/-! ## `gdocai.py` MIME resolution (`get_mime_type` and the main gate) -/

/-- The explicit extension table of `gdocai.py`. -/
def SUPPORTED_MIME_TYPES : List (String × String) :=
  [(".pdf", "application/pdf"), (".jpg", "image/jpeg"), (".jpeg", "image/jpeg"),
   (".tiff", "image/tiff"), (".tif", "image/tiff"), (".gif", "image/gif"),
   (".png", "image/png"), (".webp", "image/webp"), (".bmp", "image/bmp")]

/-- Python `mime_type.split('/')[0]`: the prefix before the first slash. -/
def topLevelType (m : String) : String :=
  String.mk (m.data.takeWhile (fun c => !(c == '/')))

/-- `get_mime_type`: explicit table first; otherwise fall back to
`mimetypes.guess_type` (injected as `guess`, the system table's result for
this path) and accept the guess when its top-level type is `image` or
`application`. -/
def get_mime_type (guess : Option String) (ext : String) : Option String :=
  match SUPPORTED_MIME_TYPES.find? (fun p => p.1 == ext) with
  | some p => some p.2
  | none =>
    match guess with
    | some m =>
      if topLevelType m == "image" || topLevelType m == "application" then some m
      else none
    | none => none

/-- The `__main__` gate: `if not file_mime_type:` rejects with an exit;
otherwise the script goes on to submit the file to the provider.  (Returns
`true` when the file is submitted.) -/
def gdocaiSubmits (guess : Option String) (ext : String) : Bool :=
  (get_mime_type guess ext).isSome

/-! ## Helper lemmas -/

theorem strData_append (s t : String) : (s ++ t).data = s.data ++ t.data := rfl

/-- Characters of a page text that keep the joined blob well-behaved: the text
is non-empty, starts and ends with non-whitespace, and contains no dash. -/
def cleanChars : List Char → Bool
  | [] => false
  | c :: rest =>
    !isPySpace c && !isPySpace (rest.getLastD c) &&
      (c :: rest).all (fun x => !(x == '-'))

/-- `cleanChars` applied to an optional page text (`none` fails it). -/
def cleanTextOpt : Option String → Bool
  | none => false
  | some t => cleanChars t.data

theorem cleanChars_ne_nil {l : List Char} (h : cleanChars l = true) : l ≠ [] := by
  intro hnil; subst hnil; simp [cleanChars] at h

theorem cleanChars_no_dash {l : List Char} (h : cleanChars l = true) :
    ∀ c ∈ l, c ≠ '-' := by
  match l with
  | [] => simp [cleanChars] at h
  | c :: rest =>
    simp only [cleanChars, Bool.and_eq_true, List.all_eq_true] at h
    intro x hx
    have := h.2 x hx
    simpa using this

theorem cleanChars_head {c : Char} {rest : List Char}
    (h : cleanChars (c :: rest) = true) : isPySpace c = false := by
  simp only [cleanChars, Bool.and_eq_true, Bool.not_eq_true'] at h
  exact h.1.1

theorem cleanChars_getLast {l : List Char} (h : cleanChars l = true) :
    ∃ c, l.getLast? = some c ∧ isPySpace c = false ∧ c ≠ '-' := by
  match l with
  | [] => simp [cleanChars] at h
  | c :: rest =>
    refine ⟨(c :: rest).getLast (by simp), by simp [List.getLast?_eq_getLast], ?_, ?_⟩
    · have h2 : isPySpace (rest.getLastD c) = false := by
        simp only [cleanChars, Bool.and_eq_true, Bool.not_eq_true'] at h
        exact h.1.2
      have : (c :: rest).getLast (by simp) = rest.getLastD c := by
        cases rest with
        | nil => simp [List.getLastD]
        | cons b bs => simp [List.getLast_cons, List.getLastD_eq_getLast?,
            List.getLast?_eq_getLast]
      rw [this]; exact h2
    · exact cleanChars_no_dash h _ (List.getLast_mem _)

theorem countOcc_pageSep (w : List Char) :
    countOcc pbMark.data (pageSep.data ++ w) = countOcc pbMark.data w + 1 := rfl

theorem countOcc_no_dash_append {u : List Char} (w : List Char)
    (h : ∀ c ∈ u, c ≠ '-') :
    countOcc pbMark.data (u ++ w) = countOcc pbMark.data w := by
  induction u with
  | nil => simp
  | cons c u ih =>
    have hc : c ≠ '-' := h c (by simp)
    have hbeq : ('-' == c) = false := beq_eq_false_iff_ne.mpr (Ne.symm hc)
    have hpre : pbMark.data.isPrefixOf (c :: (u ++ w)) = false := by
      show List.isPrefixOf ('-' :: _) _ = false
      simp [List.isPrefixOf, hbeq]
    calc countOcc pbMark.data ((c :: u) ++ w)
        = cond (pbMark.data.isPrefixOf (c :: (u ++ w)))
            (countOcc pbMark.data (u ++ w) + 1) (countOcc pbMark.data (u ++ w)) := rfl
      _ = countOcc pbMark.data (u ++ w) := by rw [hpre]; rfl
      _ = countOcc pbMark.data w := ih (fun x hx => h x (by simp [hx]))

theorem countOcc_no_dash {u : List Char} (h : ∀ c ∈ u, c ≠ '-') :
    countOcc pbMark.data u = 0 := by
  have := countOcc_no_dash_append (u := u) [] h
  simpa using this

theorem countOcc_pyJoin {ts : List String} (hne : ts ≠ [])
    (hclean : ∀ t ∈ ts, cleanChars t.data = true) :
    countOcc pbMark.data (pyJoin pageSep ts).data = ts.length - 1 := by
  induction ts with
  | nil => exact absurd rfl hne
  | cons t ts ih =>
    cases ts with
    | nil =>
      simp only [pyJoin, List.length_singleton]
      exact countOcc_no_dash (cleanChars_no_dash (hclean t (by simp)))
    | cons t2 ts' =>
      have hd : (pyJoin pageSep (t :: t2 :: ts')).data
          = t.data ++ (pageSep.data ++ (pyJoin pageSep (t2 :: ts')).data) := by
        show ((t ++ pageSep) ++ pyJoin pageSep (t2 :: ts')).data = _
        rw [strData_append, strData_append, List.append_assoc]
      rw [hd,
        countOcc_no_dash_append _ (cleanChars_no_dash (hclean t (by simp))),
        countOcc_pageSep,
        ih (by simp) (fun x hx => hclean x (by simp [hx]))]
      simp

theorem pyJoin_head {t : String} {ts : List String} {c : Char} {l : List Char}
    (hd : t.data = c :: l) :
    (pyJoin pageSep (t :: ts)).data.head? = some c := by
  cases ts with
  | nil => simp [pyJoin, hd]
  | cons t2 ts' =>
    show (((t ++ pageSep) ++ pyJoin pageSep (t2 :: ts')).data).head? = some c
    rw [strData_append, strData_append, List.append_assoc, hd]
    rfl

theorem pyJoin_getLast {ts : List String} (hne : ts ≠ [])
    (hclean : ∀ t ∈ ts, cleanChars t.data = true) :
    ∃ c, (pyJoin pageSep ts).data.getLast? = some c ∧
      isPySpace c = false ∧ c ≠ '-' := by
  induction ts with
  | nil => exact absurd rfl hne
  | cons t ts ih =>
    cases ts with
    | nil =>
      obtain ⟨c, hc, hs, hd⟩ := cleanChars_getLast (hclean t (by simp))
      exact ⟨c, by simpa [pyJoin] using hc, hs, hd⟩
    | cons t2 ts' =>
      obtain ⟨c, hc, hs, hd⟩ := ih (by simp) (fun x hx => hclean x (by simp [hx]))
      refine ⟨c, ?_, hs, hd⟩
      have hjoin : (pyJoin pageSep (t :: t2 :: ts')).data
          = (t.data ++ pageSep.data) ++ (pyJoin pageSep (t2 :: ts')).data := by
        show ((t ++ pageSep) ++ pyJoin pageSep (t2 :: ts')).data = _
        rw [strData_append, strData_append]
      rw [hjoin, List.getLast?_append_of_ne_nil]
      · exact hc
      · intro hnil
        rw [hnil] at hc
        simp at hc

theorem pyStrip_of_clean_ends {s : String} {c c' : Char}
    (h1 : s.data.head? = some c) (hc : isPySpace c = false)
    (h2 : s.data.getLast? = some c') (hc' : isPySpace c' = false) :
    pyStrip s = s := by
  have hdrop : s.data.dropWhile isPySpace = s.data := by
    cases hd : s.data with
    | nil => simp [hd] at h1
    | cons a l =>
      rw [hd] at h1
      have : a = c := by simpa using h1
      subst this
      simp [List.dropWhile_cons, hc]
  have hrev : s.data.reverse.dropWhile isPySpace = s.data.reverse := by
    cases hr : s.data.reverse with
    | nil =>
      simp
    | cons a l =>
      have hh : s.data.reverse.head? = some c' := by
        rw [List.head?_reverse]; exact h2
      rw [hr] at hh
      have ha : a = c' := by simpa using hh
      rw [List.dropWhile_cons, ha, hc']
      simp
  show String.mk (((s.data.dropWhile isPySpace).reverse.dropWhile isPySpace).reverse) = s
  rw [hdrop, hrev, List.reverse_reverse]

theorem pyEndsWith_pbMark_false {s : String} {c : Char}
    (h : s.data.getLast? = some c) (hc : c ≠ '-') :
    pyEndsWith s pbMark = false := by
  have hrev : s.data.reverse.head? = some c := by
    rw [List.head?_reverse]; exact h
  cases hr : s.data.reverse with
  | nil => rw [hr] at hrev; simp at hrev
  | cons a l =>
    rw [hr] at hrev
    have ha : a = c := by simpa using hrev
    have hbeq : ('-' == a) = false := by
      rw [ha]; exact beq_eq_false_iff_ne.mpr (Ne.symm hc)
    show pbMark.data.reverse.isPrefixOf s.data.reverse = false
    rw [hr]
    show List.isPrefixOf ('-' :: _) (a :: l) = false
    simp [List.isPrefixOf, hbeq]

theorem pageBreakTrim_of_clean {ts : List String} (hne : ts ≠ [])
    (hclean : ∀ t ∈ ts, cleanChars t.data = true) :
    pageBreakTrim (pyJoin pageSep ts) = pyJoin pageSep ts := by
  obtain ⟨t, ts', rfl⟩ : ∃ t ts', ts = t :: ts' := by
    cases ts with
    | nil => exact absurd rfl hne
    | cons a l => exact ⟨a, l, rfl⟩
  have hct := hclean t (by simp)
  obtain ⟨c, l, hd⟩ : ∃ c l, t.data = c :: l := by
    cases hdd : t.data with
    | nil => exact absurd hdd (cleanChars_ne_nil hct)
    | cons a l => exact ⟨a, l, rfl⟩
  have hhead : (pyJoin pageSep (t :: ts')).data.head? = some c := pyJoin_head hd
  obtain ⟨c', hlast, hs', hd'⟩ := pyJoin_getLast (by simp) hclean
  have hspace : isPySpace c = false := by
    have := cleanChars_head (hd ▸ hct)
    exact this
  have hnotempty : (pyJoin pageSep (t :: ts')).data.isEmpty = false := by
    cases hj : (pyJoin pageSep (t :: ts')).data with
    | nil => rw [hj] at hhead; simp at hhead
    | cons a l => simp
  have hstrip : pyStrip (pyJoin pageSep (t :: ts')) = pyJoin pageSep (t :: ts') :=
    pyStrip_of_clean_ends hhead hspace hlast hs'
  have hends : pyEndsWith (pyJoin pageSep (t :: ts')) pbMark = false :=
    pyEndsWith_pbMark_false hlast hd'
  show pageBreakTrim _ = _
  rw [pageBreakTrim, hnotempty]
  simp only [Bool.false_eq_true, if_false, hstrip, hends]

theorem collectTextParts_of_clean {rs : List PageResult}
    (h : ∀ r ∈ rs, cleanTextOpt r.text = true) :
    (collectTextParts rs).length = rs.length ∧
      ∀ t ∈ collectTextParts rs, cleanChars t.data = true := by
  induction rs with
  | nil => simp [collectTextParts]
  | cons r rest ih =>
    have hr := h r (by simp)
    obtain ⟨ihlen, ihmem⟩ := ih (fun x hx => h x (by simp [hx]))
    match ht : r.text with
    | none => rw [ht] at hr; simp [cleanTextOpt] at hr
    | some t =>
      rw [ht] at hr
      have hclean : cleanChars t.data = true := hr
      have hempty : t.data.isEmpty = false := by
        cases hdd : t.data with
        | nil => exact absurd hdd (cleanChars_ne_nil hclean)
        | cons a l => simp
      have hstep : collectTextParts (r :: rest) = t :: collectTextParts rest := by
        simp only [collectTextParts, ht, hempty, Bool.false_eq_true, if_false]
      rw [hstep]
      constructor
      · simp [ihlen]
      · intro x hx
        simp only [List.mem_cons] at hx
        cases hx with
        | inl hxe => rw [hxe]; exact hclean
        | inr hxm => exact ihmem x hxm

/-- Merged-text separator count for the forced-conversion branch: when every
page text is present and clean, the joined blob keeps exactly one separator
occurrence per adjacent pair. -/
theorem mergeTexts_count {rs : List PageResult} (hne : rs ≠ [])
    (h : ∀ r ∈ rs, cleanTextOpt r.text = true) :
    strCountOcc pbMark (mergeTexts rs) = rs.length - 1 := by
  obtain ⟨hlen, hmem⟩ := collectTextParts_of_clean h
  have hpne : collectTextParts rs ≠ [] := by
    intro hnil
    rw [hnil] at hlen
    cases rs with
    | nil => exact hne rfl
    | cons a l => simp at hlen
  show countOcc pbMark.data (pageBreakTrim (pyJoin pageSep (collectTextParts rs))).data
      = rs.length - 1
  rw [pageBreakTrim_of_clean hpne hmem, countOcc_pyJoin hpne hmem, hlen]

/-- Expected 1-based ordinals. -/
def ordinalsFrom : Nat → Nat → List Int
  | _, 0 => []
  | n, k + 1 => Int.ofNat n :: ordinalsFrom (n + 1) k

/-- The `page` field of a `pages` entry of the forced-conversion envelope. -/
def pageOrdinal : JValue → Int
  | JValue.obj (("page", JValue.num n) :: _) => n
  | _ => 0

/-- The `response` field of a `pages` entry of the forced-conversion envelope. -/
def entryResponse : JValue → JValue
  | JValue.obj [_, ("response", j)] => j
  | v => v

theorem ordinalsFrom_chain (k n : Nat) :
    List.Chain' (fun a b => a < b) (ordinalsFrom n k) := by
  induction k generalizing n with
  | zero => simp [ordinalsFrom]
  | succ k ih =>
    cases k with
    | zero => simp [ordinalsFrom]
    | succ k' =>
      show List.Chain' _ (Int.ofNat n :: Int.ofNat (n + 1) :: ordinalsFrom (n + 2) k')
      refine List.chain'_cons.mpr ⟨by simp [Int.ofNat_lt], ?_⟩
      exact ih (n + 1)

theorem collectJsonAux_of_truthy {rs : List PageResult} (n : Nat)
    (h : ∀ r ∈ rs, optJsonTruthy r.json = true) :
    (collectJsonAux n rs).map pageOrdinal = ordinalsFrom n rs.length ∧
      (collectJsonAux n rs).map entryResponse = rs.filterMap PageResult.json := by
  induction rs generalizing n with
  | nil => simp [collectJsonAux, ordinalsFrom]
  | cons r rest ih =>
    have hr := h r (by simp)
    obtain ⟨ih1, ih2⟩ := ih (n + 1) (fun x hx => h x (by simp [hx]))
    match hj : r.json with
    | none => rw [hj] at hr; simp [optJsonTruthy] at hr
    | some j =>
      rw [hj] at hr
      have htr : j.truthy = true := hr
      have hstep : collectJsonAux n (r :: rest)
          = JValue.obj [("page", JValue.num (Int.ofNat n)), ("response", j)]
            :: collectJsonAux (n + 1) rest := by
        simp only [collectJsonAux, hj, htr, if_true]
      have hfm : (r :: rest).filterMap PageResult.json
          = j :: rest.filterMap PageResult.json := by
        simp [List.filterMap_cons, hj]
      constructor
      · rw [hstep, List.map_cons, ih1]; rfl
      · rw [hstep, List.map_cons, ih2, hfm]; rfl

theorem collectJsonAux_length {rs : List PageResult} (n : Nat)
    (h : ∀ r ∈ rs, optJsonTruthy r.json = true) :
    (collectJsonAux n rs).length = rs.length := by
  induction rs generalizing n with
  | nil => simp [collectJsonAux]
  | cons r rest ih =>
    have hr := h r (by simp)
    match hj : r.json with
    | none => rw [hj] at hr; simp [optJsonTruthy] at hr
    | some j =>
      rw [hj] at hr
      have htr : j.truthy = true := hr
      have hstep : collectJsonAux n (r :: rest)
          = JValue.obj [("page", JValue.num (Int.ofNat n)), ("response", j)]
            :: collectJsonAux (n + 1) rest := by
        simp only [collectJsonAux, hj, htr, if_true]
      rw [hstep]
      simp [ih (n + 1) (fun x hx => h x (by simp [hx]))]

theorem pollUntilDone_spec (pre : List AzureReadResult) (fin : AzureReadResult)
    (rest : List AzureReadResult)
    (hpre : ∀ r ∈ pre, azInProgress r.status = true)
    (hfin : azInProgress fin.status = false) :
    pollUntilDone (pre ++ fin :: rest) = some (pre.length + 1, 2 * pre.length, fin) := by
  induction pre with
  | nil =>
    show pollUntilDone (fin :: rest) = _
    rw [pollUntilDone, hfin]
    simp
  | cons r pre ih =>
    have hr := hpre r (by simp)
    show pollUntilDone (r :: (pre ++ fin :: rest)) = _
    rw [pollUntilDone, hr, ih (fun x hx => hpre x (by simp [hx]))]
    simp only [List.length_cons]
    norm_num
    omega

theorem saveCheck_ne_raised {ctx : ProcCtx} (hTxt : ctx.txtWriteOk = true)
    (hJson : ctx.jsonWriteOk = true) (t : Option String) (j : Option JValue) :
    saveCheck ctx t j ≠ ProcOutcome.raised := by
  cases t <;> cases j <;> simp [saveCheck, hTxt, hJson]

/-- The page texts `process_pdf_file_with_provider` produces for gemini. -/
def geminiPdfParts : Nat → List String → List String
  | _, [] => []
  | i, t :: ts => ("--- Page " ++ toString (i + 1) ++ " ---\n" ++ t) :: geminiPdfParts (i + 1) ts

theorem mePageLoop_gemini (i : Nat) (ts : List String) :
    mePageLoop "gemini" i ts = Except.ok (geminiPdfParts i ts) := by
  induction ts generalizing i with
  | nil => rfl
  | cons t ts ih =>
    show (match mePageStep "gemini" i t with
      | Except.error e => Except.error e
      | Except.ok s =>
        match mePageLoop "gemini" (i + 1) ts with
        | Except.error e => Except.error e
        | Except.ok rest => Except.ok (s :: rest)) = _
    rw [ih]
    rfl

/-! ## Claims -/

/-- Claim C1: for a finite polling-status sequence whose first k−1 elements are
in-progress and whose k-th element is anything else, `ocr_azure_read_stream`
issues exactly k status checks, waits 2 time units between consecutive checks
(2·(k−1) in total), and returns: the succeeded text/raw result for status
`succeeded`, and a structured failure dict carrying the provider status and
diagnostics with text absent for any other terminal status — a returned value,
never an escaping exception. -/
theorem azure_polling_claim (name : String) (pre : List AzureReadResult)
    (tm : AzureReadResult) (rest : List AzureReadResult)
    (hpre : ∀ r ∈ pre, azInProgress r.status = true)
    (htm : azInProgress tm.status = false) :
    ocr_azure_read_stream name (pre ++ tm :: rest) =
      some { checks := pre.length + 1, waitUnits := 2 * pre.length,
             text := if tm.status == "succeeded"
                     then some (azureSucceededText tm.pages) else none,
             json := if tm.status == "succeeded"
                     then some tm.raw else some (azureFailureJson name tm) } := by
  unfold ocr_azure_read_stream
  rw [pollUntilDone_spec pre tm rest hpre htm]
  cases hs : tm.status == "succeeded" <;> simp [hs]

/-- Concrete running result used in the C1 witness. -/
def azRunning : AzureReadResult :=
  { status := "running", pages := [], message := none, apiErrors := none,
    raw := JValue.obj [("status", JValue.str "running")] }

/-- Concrete succeeded result used in the C1 witness. -/
def azSucceeded : AzureReadResult :=
  { status := "succeeded", pages := [["hello"]], message := none, apiErrors := none,
    raw := JValue.obj [("status", JValue.str "succeeded")] }

/-- Concrete failed result used in the C1 witness. -/
def azFailed : AzureReadResult :=
  { status := "failed", pages := [], message := some "bad image", apiErrors := none,
    raw := JValue.obj [("status", JValue.str "failed")] }

/-- Witness for C1: the spec's scripted sequences `[running, running,
succeeded]` (3 checks, result returned) and `[running, failed]` (2 checks,
structured failure). -/
theorem azure_polling_claim_witness :
    ocr_azure_read_stream "f.png" [azRunning, azRunning, azSucceeded] =
      some { checks := 3, waitUnits := 4, text := some "hello",
             json := some azSucceeded.raw } ∧
    ocr_azure_read_stream "f.png" [azRunning, azFailed] =
      some { checks := 2, waitUnits := 2, text := none,
             json := some (azureFailureJson "f.png" azFailed) } := by
  constructor
  · have h := azure_polling_claim "f.png" [azRunning, azRunning] azSucceeded []
      (by decide) (by decide)
    exact h.trans rfl
  · have h := azure_polling_claim "f.png" [azRunning] azFailed []
      (by decide) (by decide)
    exact h.trans rfl

/-- Counterexample to claim C2: on an empty per-page result sequence the
forced-conversion branch does NOT return a "no result" signal — `text_content`
is the empty string (not `None`), the envelope is a dict, the save gate
passes, and empty `.txt`/`.json` files are written. -/
theorem forced_empty_counterexample :
    forcedProcess [] "empty.pdf" =
      some ("", JValue.obj [("pages", JValue.arr []),
                            ("source_file", JValue.str "empty.pdf"),
                            ("method", JValue.str "pdf_converted_to_images")]) := rfl

/-- Claim C2 as amended: for every run of the aggregation step over an empty
per-page result sequence, the aggregator produces an empty-string success with
an empty `pages` array; this passes the not-`None` save gate, so empty
`.txt`/`.json` outputs ARE written — an empty sequence is not distinguishable
from an empty-text success. -/
theorem forced_empty_amended (name : String) :
    forcedProcess [] name =
      some ("", JValue.obj [("pages", JValue.arr []),
                            ("source_file", JValue.str name),
                            ("method", JValue.str "pdf_converted_to_images")]) := rfl

/-- Two pages both returning results, the second a success with empty text:
the merged blob keeps 0 page-break separators instead of the claimed N−1 = 1,
while the `pages` array still has 2 entries. -/
def cexHalf : List PageResult :=
  [{ text := some "a", json := some (JValue.obj [("k", JValue.str "v")]) },
   { text := some "", json := some (JValue.obj [("k", JValue.str "v")]) }]

/-- Counterexample to claim C3: a 2-page forced-conversion PDF in which every
page submission returns a result (page 2 a success with empty text) yields a
merged text with 0 occurrences of the separator, not N−1 = 1. -/
theorem forced_count_counterexample :
    mergeTexts cexHalf = "a" ∧
    strCountOcc pbMark (mergeTexts cexHalf) = 0 ∧
    cexHalf.length - 1 = 1 ∧
    (collectJsonParts cexHalf).length = 2 := ⟨rfl, rfl, rfl, rfl⟩

/-- Claim C3 as amended: for an N-page forced-conversion PDF whose every page
yields a truthy JSON response and a clean non-empty text (no dash characters,
non-whitespace first and last character — in particular no text that embeds or
abuts the separator), the merged text contains exactly N−1 occurrences of
`"--- Page Break ---"` and the `pages` array has exactly N entries whose
1-based `page` ordinals are strictly ascending. -/
theorem forced_count_amended (rs : List PageResult) (hne : rs ≠ [])
    (htext : ∀ r ∈ rs, cleanTextOpt r.text = true)
    (hjson : ∀ r ∈ rs, optJsonTruthy r.json = true) :
    strCountOcc pbMark (mergeTexts rs) = rs.length - 1 ∧
    (collectJsonParts rs).length = rs.length ∧
    (collectJsonParts rs).map pageOrdinal = ordinalsFrom 1 rs.length ∧
    List.Chain' (fun a b => a < b) ((collectJsonParts rs).map pageOrdinal) := by
  refine ⟨mergeTexts_count hne htext, collectJsonAux_length 1 hjson, ?_, ?_⟩
  · exact (collectJsonAux_of_truthy 1 hjson).1
  · show List.Chain' (fun a b => a < b) ((collectJsonAux 1 rs).map pageOrdinal)
    rw [(collectJsonAux_of_truthy 1 hjson).1]
    exact ordinalsFrom_chain _ 1

/-- Three clean pages used in the C3 witness. -/
def wit3 : List PageResult :=
  [{ text := some "alpha", json := some (JValue.obj [("k", JValue.str "v1")]) },
   { text := some "beta", json := some (JValue.obj [("k", JValue.str "v2")]) },
   { text := some "gamma", json := some (JValue.obj [("k", JValue.str "v3")]) }]

/-- Witness for the amended C3 at a concrete 3-page input. -/
theorem forced_count_amended_witness :
    strCountOcc pbMark (mergeTexts wit3) = 2 ∧
    (collectJsonParts wit3).length = 3 ∧
    (collectJsonParts wit3).map pageOrdinal = [1, 2, 3] ∧
    List.Chain' (fun a b => a < b) ((collectJsonParts wit3).map pageOrdinal) := by
  have h := forced_count_amended wit3 (List.cons_ne_nil _ _) (by decide) (by decide)
  exact ⟨h.1, h.2.1, h.2.2.1.trans rfl, h.2.2.2⟩

/-- Counterexample to claim C4: when the text write succeeds but the JSON
write fails, `save_results` leaves the already-written `.txt` on disk with no
`.json` sibling — a partial terminal state. -/
theorem save_results_counterexample :
    (save_results true false).txtWritten = true ∧
    (save_results true false).jsonWritten = false ∧
    (save_results true false).raised = true := ⟨rfl, rfl, rfl⟩

/-- Claim C4 as amended: if the text write fails the JSON write is not
attempted; on success both siblings are written; but if the JSON write fails
after a successful text write, the text file remains written while the error
propagates — partial terminal states are possible. -/
theorem save_results_amended (b : Bool) :
    (save_results false b).jsonWritten = false ∧
    save_results false b = { txtWritten := false, jsonWritten := false, raised := true } ∧
    save_results true false = { txtWritten := true, jsonWritten := false, raised := true } ∧
    save_results true true = { txtWritten := true, jsonWritten := true, raised := false } :=
  ⟨rfl, rfl, rfl, rfl⟩

/-- A direct-submission Azure PDF whose `open` fails (file deleted or
unreadable after the directory scan). -/
def badAzPdfCtx : ProcCtx :=
  { ext := ".pdf", fileName := "scan.pdf", api := "azure", forcePdf := false,
    pdfOpenOk := false, imgOpenOk := true, convertOk := true, pageResults := [],
    docText := none, docJson := none, txtWriteOk := true, jsonWriteOk := true }

/-- A well-behaved image file following it in the scan order. -/
def okImgCtx : ProcCtx :=
  { ext := ".png", fileName := "page.png", api := "google", forcePdf := false,
    pdfOpenOk := true, imgOpenOk := true, convertOk := true, pageResults := [],
    docText := some "text", docJson := some (JValue.obj [("k", JValue.str "v")]),
    txtWriteOk := true, jsonWriteOk := true }

/-- Counterexample to claim C5: an unreadable PDF in the direct-submission
Azure branch raises out of `process_file` (the `with open(...)` there is not
inside any `try`), and the unguarded main loop then never reaches the next
file. -/
theorem process_file_counterexample :
    process_file badAzPdfCtx = ProcOutcome.raised ∧
    runAll [badAzPdfCtx, okImgCtx] = [ProcOutcome.raised] := ⟨rfl, rfl⟩

/-- Claim C5 as amended: errors are contained at the file boundary — and the
main loop continues past the file — for unsupported extensions, rasterization
failures, provider failures and unreadable image files; the exceptions are an
unopenable PDF in the direct-submission Azure path and a failing output write,
which raise out of `process_file` and abort the remaining files. -/
theorem process_file_amended (ctx : ProcCtx) (cs : List ProcCtx)
    (hTxt : ctx.txtWriteOk = true) (hJson : ctx.jsonWriteOk = true)
    (hAz : ¬(ctx.ext = ".pdf" ∧ ctx.forcePdf = false ∧ ctx.api = "azure" ∧
             ctx.pdfOpenOk = false)) :
    process_file ctx ≠ ProcOutcome.raised ∧
    runAll (ctx :: cs) = process_file ctx :: runAll cs := by
  have hne : process_file ctx ≠ ProcOutcome.raised := by
    unfold process_file
    split
    · exact fun h => ProcOutcome.noConfusion h
    · split
      · split
        · exact saveCheck_ne_raised hTxt hJson _ _
        · split
          · split
            · exact saveCheck_ne_raised hTxt hJson _ _
            · rename_i hnot hdirect hgoog hazure hopen
              exfalso
              apply hAz
              have h1 : ctx.ext = ".pdf" :=
                beq_iff_eq.mp ((Bool.and_eq_true _ _).mp hdirect).1
              have h2 : ctx.forcePdf = false := by
                have := ((Bool.and_eq_true _ _).mp hdirect).2
                simpa using this
              have h3 : ctx.api = "azure" := beq_iff_eq.mp hazure
              have h4 : ctx.pdfOpenOk = false := Bool.eq_false_iff.mpr hopen
              exact ⟨h1, h2, h3, h4⟩
          · exact fun h => ProcOutcome.noConfusion h
      · split
        · split
          · split
            · exact saveCheck_ne_raised hTxt hJson _ _
            · exact fun h => ProcOutcome.noConfusion h
          · exact fun h => ProcOutcome.noConfusion h
        · split
          · split
            · exact saveCheck_ne_raised hTxt hJson _ _
            · exact fun h => ProcOutcome.noConfusion h
          · exact fun h => ProcOutcome.noConfusion h
  refine ⟨hne, ?_⟩
  show (match process_file ctx with
        | ProcOutcome.raised => [ProcOutcome.raised]
        | o => o :: runAll cs) = process_file ctx :: runAll cs
  cases hp : process_file ctx with
  | returned => rfl
  | saved t j => rfl
  | raised => exact absurd hp hne

/-- Witness for the amended C5: a readable image file is processed without an
escaping exception, and the loop continues past it. -/
theorem process_file_amended_witness :
    process_file okImgCtx ≠ ProcOutcome.raised ∧
    runAll [okImgCtx] = process_file okImgCtx :: runAll [] :=
  process_file_amended okImgCtx [] rfl rfl (by decide)

/-- Counterexample to claim C6: for a successfully processed (file, provider)
pair, `multi_extractor.py` persists exactly one file, named with an
`_extracted_` infix and no `.json` sibling, and `mtext_extractor.py` persists
a single `.md` file without the provider name — not the claimed
`<stem>_<provider>_<timestamp>.txt` / `.json` pair. -/
theorem naming_counterexample :
    multiOutputFiles "doc" "gemini" "20250101-120000" =
      ["doc_gemini_extracted_20250101-120000.txt"] ∧
    multiOutputFiles "doc" "gemini" "20250101-120000" ≠
      specClaimedFiles "doc" "gemini" "20250101-120000" ∧
    (multiOutputFiles "doc" "gemini" "20250101-120000").length = 1 ∧
    mtextOutputFiles "doc" "20250101-120000" = ["doc_extracted_20250101-120000.md"] := by
  refine ⟨rfl, by decide, rfl, rfl⟩

/-- Claim C6 as amended: only `azure-gcp-vision-extractor.py` persists the
claimed `<stem>_<provider>_<timestamp>.txt` and `.json` sibling pair;
`multi_extractor.py` writes a single `<stem>_<provider>_extracted_<timestamp>.txt`
per provider, and `mtext_extractor.py` a single `<stem>_extracted_<timestamp>.md`. -/
theorem naming_amended (stem provider ts : String) :
    avOutputFiles stem provider ts = specClaimedFiles stem provider ts ∧
    multiOutputFiles stem provider ts =
      [stem ++ "_" ++ provider ++ "_extracted_" ++ ts ++ ".txt"] ∧
    mtextOutputFiles stem ts = [stem ++ "_extracted_" ++ ts ++ ".md"] :=
  ⟨rfl, rfl, rfl⟩

/-- A concrete per-page response of the direct Google PDF path. -/
def gPdfSample : GPdfPageResponse :=
  { fullText := some "x", raw := [("text", JValue.str "x")], contextPage := none }

/-- Counterexample to claim C7: the direct-image path persists the provider's
raw response with no envelope at all, and the direct Google PDF path builds
`{pages, source_file}` without a `method` field — the claimed
`{pages, source_file, method}` envelope does not hold for all three paths. -/
theorem envelope_counterexample :
    (ocr_google_image_bytes ⟨none, some "x", JValue.obj [("text", JValue.str "x")]⟩).2 =
      some (JValue.obj [("text", JValue.str "x")]) ∧
    specEnvelopeShape (JValue.obj [("text", JValue.str "x")]) = false ∧
    (ocr_google_pdf "d.pdf" (some [gPdfSample])).2 =
      some (JValue.obj [("pages", JValue.arr [gPdfEntry 1 gPdfSample]),
                        ("source_file", JValue.str "d.pdf")]) ∧
    specEnvelopeShape (JValue.obj [("pages", JValue.arr [gPdfEntry 1 gPdfSample]),
                       ("source_file", JValue.str "d.pdf")]) = false :=
  ⟨rfl, rfl, rfl, rfl⟩

/-- Claim C7 as amended: the `{pages, source_file, method}` envelope — with
1-based ordinals in submission order and the raw per-page responses recorded
verbatim under `response` — is produced only by the forced per-page conversion
path; direct Google PDF submission produces `{pages, source_file}` with no
`method` field (its entries are the raw dicts with iteration ordinals assigned
into them), and direct image submission persists the provider's raw response
unwrapped. -/
theorem envelope_amended (rs : List PageResult) (name : String)
    (resp : GVisionResponse) (ps : List GPdfPageResponse)
    (hjson : ∀ r ∈ rs, optJsonTruthy r.json = true)
    (hok : resp.errMsg = none) :
    specEnvelopeShape (forcedEnvelope rs name) = true ∧
    (collectJsonParts rs).map pageOrdinal = ordinalsFrom 1 rs.length ∧
    (collectJsonParts rs).map entryResponse = rs.filterMap PageResult.json ∧
    (ocr_google_pdf name (some ps)).2 =
      some (JValue.obj [("pages", JValue.arr (gPdfEntries 1 ps)),
                        ("source_file", JValue.str name)]) ∧
    specEnvelopeShape (JValue.obj [("pages", JValue.arr (gPdfEntries 1 ps)),
                       ("source_file", JValue.str name)]) = false ∧
    ocr_google_image_bytes resp = (some (resp.fullText.getD ""), some resp.raw) := by
  obtain ⟨h1, h2⟩ := collectJsonAux_of_truthy 1 hjson
  refine ⟨rfl, h1, h2, rfl, rfl, ?_⟩
  unfold ocr_google_image_bytes
  rw [hok]

/-- One truthy page used in the C7 witness. -/
def wit7 : List PageResult :=
  [{ text := some "x", json := some (JValue.obj [("k", JValue.str "v")]) }]

/-- A successful Google Vision image response used in the C7 witness. -/
def gvOkResp : GVisionResponse :=
  { errMsg := none, fullText := some "x", raw := JValue.obj [("text", JValue.str "x")] }

/-- Witness for the amended C7 at concrete inputs. -/
theorem envelope_amended_witness :
    specEnvelopeShape (forcedEnvelope wit7 "d.pdf") = true ∧
    (collectJsonParts wit7).map pageOrdinal = ordinalsFrom 1 wit7.length ∧
    (collectJsonParts wit7).map entryResponse = wit7.filterMap PageResult.json ∧
    (ocr_google_pdf "d.pdf" (some [gPdfSample])).2 =
      some (JValue.obj [("pages", JValue.arr (gPdfEntries 1 [gPdfSample])),
                        ("source_file", JValue.str "d.pdf")]) ∧
    specEnvelopeShape (JValue.obj [("pages", JValue.arr (gPdfEntries 1 [gPdfSample])),
                       ("source_file", JValue.str "d.pdf")]) = false ∧
    ocr_google_image_bytes gvOkResp = (some (gvOkResp.fullText.getD ""), some gvOkResp.raw) :=
  envelope_amended wit7 "d.pdf" gvOkResp [gPdfSample] (by decide) rfl

/-- Counterexample to claim C8: a page whose provider call succeeds with no
text AND whose raw response serializes to an empty dict is dropped from the
`pages` array (`if page_json:` is false for an empty dict). -/
theorem empty_text_counterexample :
    ocr_google_image_bytes { errMsg := none, fullText := none, raw := JValue.obj [] } =
      (some "", some (JValue.obj [])) ∧
    collectJsonParts [{ text := some "", json := some (JValue.obj []) }] = [] :=
  ⟨rfl, rfl⟩

/-- Claim C8 as amended: a page whose provider call succeeds but detects no
text is recorded as a success with the empty string — distinguishable from a
failed page, whose pair is `(None, None)` — and, provided its raw structured
response is truthy (non-empty), it is kept in the `pages` array and never
triggers the "no result" absent-signal (the forced branch always saves). -/
theorem empty_text_amended (rs : List PageResult) (name m : String)
    (ft : Option String) (raw : JValue)
    (hjson : ∀ r ∈ rs, optJsonTruthy r.json = true) :
    ocr_google_image_bytes { errMsg := none, fullText := ft, raw := raw } =
      (some (ft.getD ""), some raw) ∧
    (ocr_google_image_bytes { errMsg := none, fullText := ft, raw := raw }).1 ≠ none ∧
    ocr_google_image_bytes { errMsg := some m, fullText := ft, raw := raw } =
      (none, none) ∧
    (collectJsonParts rs).length = rs.length ∧
    (forcedProcess rs name).isSome = true := by
  refine ⟨rfl, by simp [ocr_google_image_bytes], rfl, collectJsonAux_length 1 hjson, rfl⟩

/-- One empty-text page with a truthy raw response, for the C8 witness. -/
def wit8 : List PageResult :=
  [{ text := some "", json := some (JValue.obj [("k", JValue.str "v")]) }]

/-- Witness for the amended C8 at concrete inputs. -/
theorem empty_text_amended_witness :
    ocr_google_image_bytes ⟨none, some "", JValue.obj [("k", JValue.str "v")]⟩ =
      (some "", some (JValue.obj [("k", JValue.str "v")])) ∧
    (ocr_google_image_bytes ⟨none, some "", JValue.obj [("k", JValue.str "v")]⟩).1 ≠ none ∧
    ocr_google_image_bytes ⟨some "boom", some "", JValue.obj [("k", JValue.str "v")]⟩ =
      (none, none) ∧
    (collectJsonParts wit8).length = wit8.length ∧
    (forcedProcess wit8 "doc.pdf").isSome = true :=
  empty_text_amended wit8 "doc.pdf" "boom" (some "")
    (JValue.obj [("k", JValue.str "v")]) (by decide)

/-- Claim C9: for every PDF that rasterizes to at least one page,
`process_pdf_file_with_provider` returns the caught-`TypeError` error string
for the openai and anthropic providers (their page loop calls
`pil_to_image_bytes` with keyword `format`, which matches no parameter), while
the gemini provider returns the joined per-page extracted texts. -/
theorem multi_pdf_kwarg_claim (pdfPath provider : String)
    (pageTexts : List String) (hne : pageTexts ≠ [])
    (hp : provider = "openai" ∨ provider = "anthropic") :
    process_pdf_file_with_provider pdfPath provider pageTexts =
      "Error processing PDF " ++ pdfPath ++ " with " ++ provider ++ ": " ++
        "TypeError: unexpected keyword argument" ∧
    process_pdf_file_with_provider pdfPath "gemini" pageTexts =
      pyJoin "\n\n" (geminiPdfParts 0 pageTexts) := by
  obtain ⟨t, ts, rfl⟩ : ∃ t ts, pageTexts = t :: ts := by
    cases pageTexts with
    | nil => exact absurd rfl hne
    | cons a l => exact ⟨a, l, rfl⟩
  constructor
  · cases hp with
    | inl h => subst h; rfl
    | inr h => subst h; rfl
  · show (match mePageLoop "gemini" 0 (t :: ts) with
      | Except.error e =>
        "Error processing PDF " ++ pdfPath ++ " with " ++ "gemini" ++ ": " ++ e
      | Except.ok parts => pyJoin "\n\n" parts) = _
    rw [mePageLoop_gemini]

/-- Witness for C9: a one-page PDF with openai yields the error string; the
same page with gemini yields the formatted page text. -/
theorem multi_pdf_kwarg_claim_witness :
    process_pdf_file_with_provider "doc.pdf" "openai" ["hello"] =
      "Error processing PDF doc.pdf with openai: " ++
        "TypeError: unexpected keyword argument" ∧
    process_pdf_file_with_provider "doc.pdf" "gemini" ["hello"] =
      "--- Page 1 ---\nhello" := by
  have h := multi_pdf_kwarg_claim "doc.pdf" "openai" ["hello"] (by decide) (Or.inl rfl)
  exact ⟨h.1.trans rfl, h.2.trans rfl⟩

/-- Claim C10: `get_mime_type` in gdocai.py accepts, through its
`mimetypes.guess_type` fallback, extensions outside the declared table whose
guessed type is `image/*` or `application/*` (for example `.docx`), so the
script proceeds to submit such files instead of rejecting them; rejection with
exit happens exactly when the table misses AND the fallback yields nothing
usable. -/
theorem gdocai_mime_claim (guess : Option String) (ext m : String)
    (hnot : SUPPORTED_MIME_TYPES.find? (fun p => p.1 == ext) = none)
    (hg : guess = some m)
    (htop : topLevelType m = "application" ∨ topLevelType m = "image") :
    get_mime_type guess ext = some m ∧
    gdocaiSubmits guess ext = true ∧
    (∀ g e, gdocaiSubmits g e = false ↔ get_mime_type g e = none) := by
  have hmain : get_mime_type guess ext = some m := by
    unfold get_mime_type
    rw [hnot, hg]
    show (if topLevelType m == "image" || topLevelType m == "application"
          then some m else none) = some m
    cases htop with
    | inl h => rw [h]; rfl
    | inr h => rw [h]; rfl
  refine ⟨hmain, ?_, ?_⟩
  · unfold gdocaiSubmits
    rw [hmain]
    rfl
  · intro g e
    unfold gdocaiSubmits
    cases get_mime_type g e <;> simp

/-- Witness for C10: `.docx` is absent from the explicit table, but the
standard system table guesses an `application/*` type for it, so the script
submits the file. -/
theorem gdocai_mime_claim_witness :
    get_mime_type
      (some "application/vnd.openxmlformats-officedocument.wordprocessingml.document")
      ".docx" =
      some "application/vnd.openxmlformats-officedocument.wordprocessingml.document" ∧
    gdocaiSubmits
      (some "application/vnd.openxmlformats-officedocument.wordprocessingml.document")
      ".docx" = true ∧
    (∀ g e, gdocaiSubmits g e = false ↔ get_mime_type g e = none) :=
  gdocai_mime_claim
    (some "application/vnd.openxmlformats-officedocument.wordprocessingml.document")
    ".docx" "application/vnd.openxmlformats-officedocument.wordprocessingml.document"
    (by decide) rfl (Or.inl (by decide))
